import Mathlib

/-!
Verification development for the transactions_engine repository.

The Rust sources are shallowly embedded as executable Lean definitions:

* `src/decimal.rs` — `Decimal4` is a fixed-point decimal with exactly four
  fractional digits, a thin wrapper around a pre-rounded 96-bit decimal.
  We model a `Decimal4` value by its integer count of `10^-4` units
  (an unbounded `Int`; the claims under study do not concern the 96-bit
  overflow panics of the underlying decimal library).  Formatting and
  parsing are modelled character-by-character below.
* `src/account.rs` — `Account` and its five mutating operations.
* `src/transaction.rs` — `Transaction` and `set_state`.
* `src/storage.rs` — the `Storage` contract and its `EchoDbStorage`
  implementation over the echodb in-memory store.  A committed database
  is three keyspaces: accounts, transactions and processed-operation
  fingerprints; we model them as association lists.  A `DbTx` is a
  read-your-writes working copy of the committed state; `commit` replaces
  the committed state with the working copy, and dropping the `DbTx`
  (any error path) leaves the committed state untouched, which is the
  sequential semantics of echodb transactions.
* `src/engine.rs` — the five engine operations, translated match-by-match,
  threading the working state through the storage calls and committing
  only at the end (`Except.ok` carries the newly committed state, while
  `Except.error` means the `DbTx` was dropped and nothing was committed).

The operation fingerprint in the Rust code is a 64-bit `DefaultHasher`
hash of the tag string ("deposit" / "withdraw" / ...), the account id and
the transaction id; the amount is deliberately excluded.  We model the
fingerprint as that triple itself (hash collisions of the real hasher are
outside the model).
-/

/-- Decidable equality of `Except` results, used to evaluate engine runs
on concrete inputs. -/
instance exceptDecEq {ε α : Type} [DecidableEq ε] [DecidableEq α] : DecidableEq (Except ε α) :=
  fun a b =>
    match a, b with
    | .ok x, .ok y =>
        if h : x = y then .isTrue (by rw [h])
        else .isFalse (by intro hc; cases hc; exact h rfl)
    | .error x, .error y =>
        if h : x = y then .isTrue (by rw [h])
        else .isFalse (by intro hc; cases hc; exact h rfl)
    | .ok _, .error _ => .isFalse (by intro hc; cases hc)
    | .error _, .ok _ => .isFalse (by intro hc; cases hc)

/-- Modelled from the spec: `Decimal4::is_positive` is called by
`account.rs` and `engine.rs` but its definition is missing from
`src/decimal.rs`; the spec demands that any amount `≤ 0` be rejected with
`AmountIsNotPositive`, so `is_positive` holds exactly for amounts `> 0`. -/
def is_positive (a : Int) : Bool := decide (0 < a)

/-- Account record of `src/account.rs` (balances in `10^-4` units). -/
structure Account where
  id : Nat
  available : Int
  held : Int
  locked : Bool
  version : Nat
deriving DecidableEq, Repr

/-- Error type `AccountUpdateError` of `src/account.rs`. -/
inductive AccountUpdateError where
  | AccountLocked
  | InsufficientFunds
  | AmountIsNotPositive
deriving DecidableEq, Repr

/-- `Account::new` — fresh unlocked account with zero balances. -/
def Account.new (id : Nat) : Account :=
  { id := id, available := 0, held := 0, locked := false, version := 0 }

/-- `Account::total`. -/
def Account.total (acc : Account) : Int := acc.available + acc.held

/-- `Account::deposit` (the in-place mutation of the Rust code is written
apply-to-copy; the `u16` version counter wraps at `2^16`). -/
def Account.deposit (acc : Account) (amount : Int) : Except AccountUpdateError Account :=
  if !(is_positive amount) then .error .AmountIsNotPositive
  else if acc.locked then .error .AccountLocked
  else .ok { acc with available := acc.available + amount, version := (acc.version + 1) % 65536 }

/-- `Account::withdraw`. -/
def Account.withdraw (acc : Account) (amount : Int) : Except AccountUpdateError Account :=
  if !(is_positive amount) then .error .AmountIsNotPositive
  else if acc.locked then .error .AccountLocked
  else if amount > acc.available then .error .InsufficientFunds
  else .ok { acc with available := acc.available - amount, version := (acc.version + 1) % 65536 }

/-- `Account::dispute` — note: no `locked` check and no funds check. -/
def Account.dispute (acc : Account) (amount : Int) : Except AccountUpdateError Account :=
  if !(is_positive amount) then .error .AmountIsNotPositive
  else .ok { acc with available := acc.available - amount, held := acc.held + amount,
                      version := (acc.version + 1) % 65536 }

/-- `Account::resolve`. -/
def Account.resolve (acc : Account) (amount : Int) : Except AccountUpdateError Account :=
  if !(is_positive amount) then .error .AmountIsNotPositive
  else .ok { acc with held := acc.held - amount, available := acc.available + amount,
                      version := (acc.version + 1) % 65536 }

/-- `Account::chargeback` — removes held funds and locks the account. -/
def Account.chargeback (acc : Account) (amount : Int) : Except AccountUpdateError Account :=
  if !(is_positive amount) then .error .AmountIsNotPositive
  else .ok { acc with held := acc.held - amount, locked := true,
                      version := (acc.version + 1) % 65536 }

/-- `TransactionType` of `src/transaction.rs`. -/
inductive TransactionType where
  | Deposit
  | Withdrawal
deriving DecidableEq, Repr

/-- `TransactionState` of `src/transaction.rs`. -/
inductive TransactionState where
  | Posted
  | Disputed
  | Resolved
  | Chargeback
deriving DecidableEq, Repr

/-- Transaction record of `src/transaction.rs`. -/
structure Transaction where
  id : Nat
  account_id : Nat
  tx_type : TransactionType
  amount : Int
  state : TransactionState
  version : Nat
deriving DecidableEq, Repr

/-- Error type `TxUpdateError` of `src/transaction.rs`. -/
inductive TxUpdateError where
  | InvalidTxType
  | ForbiddenTxStateTransition (fromSt : TransactionState) (toSt : TransactionState)
deriving DecidableEq, Repr

/-- `Transaction::new` — state `Posted`, version 0. -/
def Transaction.new (id : Nat) (account_id : Nat) (tx_type : TransactionType) (amount : Int) :
    Transaction :=
  { id := id, account_id := account_id, tx_type := tx_type, amount := amount,
    state := .Posted, version := 0 }

/-- `Transaction::set_state`, exactly as written in `src/transaction.rs`:
a transition to the current state returns `Ok` without any change, a
non-trivial transition on a withdrawal fails `InvalidTxType`, and only the
three arms `Posted → Disputed`, `Disputed → Resolved` and
`Disputed → Chargeback` are accepted, every other pair failing
`ForbiddenTxStateTransition`. -/
def Transaction.set_state (t : Transaction) (new_state : TransactionState) :
    Except TxUpdateError Transaction :=
  if t.state = new_state then .ok t
  else if t.tx_type = .Withdrawal then .error .InvalidTxType
  else
    match t.state, new_state with
    | .Posted, .Disputed =>
        .ok { t with state := .Disputed, version := (t.version + 1) % 65536 }
    | .Disputed, .Resolved =>
        .ok { t with state := .Resolved, version := (t.version + 1) % 65536 }
    | .Disputed, .Chargeback =>
        .ok { t with state := .Chargeback, version := (t.version + 1) % 65536 }
    | s, s' => .error (.ForbiddenTxStateTransition s s')

/-- Operation fingerprint: the `DefaultHasher` input of
`Operation::get_hash_code` — tag string, account id, transaction id
(the amount is deliberately not part of the fingerprint). -/
abbrev OpFp := String × Nat × Nat

/-- Association-list lookup for the modelled keyspaces. -/
def alookup {α : Type} (k : Nat) : List (Nat × α) → Option α
  | [] => none
  | (k', v) :: rest => if k' = k then some v else alookup k rest

/-- Pointwise replacement of the value stored under a key (echodb `putc`
overwrites the value of an existing key; other keys are untouched). -/
def aset {α : Type} (k : Nat) (v : α) : List (Nat × α) → List (Nat × α) :=
  List.map fun p => if p.1 = k then (k, v) else p

/-- Membership test on the processed-operation log (echodb `exi`). -/
def hasOp (fp : OpFp) : List OpFp → Bool
  | [] => false
  | f :: rest => if f = fp then true else hasOp fp rest

/-- Error type `DbError` of `src/storage.rs`. -/
inductive DbError where
  | EntityAlreadyExists
  | ConcurrentModification
  | DatabaseError (msg : String)
deriving DecidableEq, Repr

/-- The three keyspaces of `EchoDbStorage` (`acc:<id>`, `tx:<id>`,
`op:<fingerprint>`).  Used both as the committed state and as the
read-your-writes working copy of an open `DbTx`. -/
structure St where
  accounts : List (Nat × Account)
  txs : List (Nat × Transaction)
  ops : List OpFp
deriving DecidableEq, Repr

/-- The empty storage. -/
def emptySt : St := { accounts := [], txs := [], ops := [] }

/-- `EchoDbStorage::insert_account` — echodb `put` fails
`KeyAlreadyExists` when the key is present. -/
def insertAccount (st : St) (acc : Account) : Except DbError St :=
  match alookup acc.id st.accounts with
  | some _ => .error .EntityAlreadyExists
  | none => .ok { st with accounts := (acc.id, acc) :: st.accounts }

/-- `EchoDbStorage::update_account` — echodb `putc` keyed by the prior
serialized value; a mismatch (or absent key) is `ConcurrentModification`. -/
def updateAccount (st : St) (old_acc new_acc : Account) : Except DbError St :=
  match alookup old_acc.id st.accounts with
  | some cur =>
      if cur = old_acc then .ok { st with accounts := aset old_acc.id new_acc st.accounts }
      else .error .ConcurrentModification
  | none => .error .ConcurrentModification

/-- `EchoDbStorage::insert_tx`. -/
def insertTx (st : St) (t : Transaction) : Except DbError St :=
  match alookup t.id st.txs with
  | some _ => .error .EntityAlreadyExists
  | none => .ok { st with txs := (t.id, t) :: st.txs }

/-- `EchoDbStorage::update_tx`. -/
def updateTx (st : St) (old_tx new_tx : Transaction) : Except DbError St :=
  match alookup old_tx.id st.txs with
  | some cur =>
      if cur = old_tx then .ok { st with txs := aset old_tx.id new_tx st.txs }
      else .error .ConcurrentModification
  | none => .error .ConcurrentModification

/-- `EchoDbStorage::insert_operation` (echodb `put` of the fingerprint). -/
def insertOpFp (st : St) (fp : OpFp) : Except DbError St :=
  if hasOp fp st.ops then .error .EntityAlreadyExists
  else .ok { st with ops := fp :: st.ops }

/-- Engine error taxonomy of `src/engine.rs`. -/
inductive EngineError where
  | AccountNotFound
  | TransactionNotFound
  | AccountLocked
  | InsufficientFunds
  | AmountIsNotPositive
  | TransactionWithTheSameIdAlreadyExists
  | TransactionIsBoundToAnotherAccount (other : Nat)
  | InvalidTxType
  | ForbiddenTxStateTransition (fromSt : TransactionState) (toSt : TransactionState)
  | ConcurrentOperationDetected
  | DatabaseError (msg : String)
deriving DecidableEq, Repr

/-- `impl From<DbError> for EngineError`. -/
def EngineError.ofDb : DbError → EngineError
  | .EntityAlreadyExists => .ConcurrentOperationDetected
  | .ConcurrentModification => .ConcurrentOperationDetected
  | .DatabaseError msg => .DatabaseError msg

/-- `impl From<AccountUpdateError> for EngineError`. -/
def EngineError.ofAccount : AccountUpdateError → EngineError
  | .AccountLocked => .AccountLocked
  | .InsufficientFunds => .InsufficientFunds
  | .AmountIsNotPositive => .AmountIsNotPositive

/-- `impl From<TxUpdateError> for EngineError`. -/
def EngineError.ofTx : TxUpdateError → EngineError
  | .InvalidTxType => .InvalidTxType
  | .ForbiddenTxStateTransition s s' => .ForbiddenTxStateTransition s s'

/-- `Engine::deposit`.  An `Except.ok` result is the committed state after
`commit_db_tx`; an `Except.error` result means the `DbTx` was dropped and
nothing was committed.  The idempotent-replay branch returns success with
the committed state unchanged (the Rust code returns `Ok(())` there
without writing anything). -/
def Engine.deposit (st : St) (acc_id tx_id : Nat) (amount : Int) : Except EngineError St :=
  if !(is_positive amount) then .error .AmountIsNotPositive
  else if hasOp ("deposit", acc_id, tx_id) st.ops then .ok st
  else
    match alookup tx_id st.txs with
    | some _ => .error .TransactionWithTheSameIdAlreadyExists
    | none =>
      match insertTx st (Transaction.new tx_id acc_id .Deposit amount) with
      | .error e => .error (EngineError.ofDb e)
      | .ok st1 =>
        match alookup acc_id st1.accounts with
        | some old_acc =>
          match Account.deposit old_acc amount with
          | .error e => .error (EngineError.ofAccount e)
          | .ok new_acc =>
            match updateAccount st1 old_acc new_acc with
            | .error e => .error (EngineError.ofDb e)
            | .ok st2 =>
              match insertOpFp st2 ("deposit", acc_id, tx_id) with
              | .error e => .error (EngineError.ofDb e)
              | .ok st3 => .ok st3
        | none =>
          match Account.deposit (Account.new acc_id) amount with
          | .error e => .error (EngineError.ofAccount e)
          | .ok new_acc =>
            match insertAccount st1 new_acc with
            | .error e => .error (EngineError.ofDb e)
            | .ok st2 =>
              match insertOpFp st2 ("deposit", acc_id, tx_id) with
              | .error e => .error (EngineError.ofDb e)
              | .ok st3 => .ok st3

/-- `Engine::withdraw`. -/
def Engine.withdraw (st : St) (acc_id tx_id : Nat) (amount : Int) : Except EngineError St :=
  if !(is_positive amount) then .error .AmountIsNotPositive
  else if hasOp ("withdraw", acc_id, tx_id) st.ops then .ok st
  else
    match alookup tx_id st.txs with
    | some _ => .error .TransactionWithTheSameIdAlreadyExists
    | none =>
      match alookup acc_id st.accounts with
      | none => .error .AccountNotFound
      | some old_acc =>
        match Account.withdraw old_acc amount with
        | .error e => .error (EngineError.ofAccount e)
        | .ok new_acc =>
          match insertTx st (Transaction.new tx_id acc_id .Withdrawal amount) with
          | .error e => .error (EngineError.ofDb e)
          | .ok st1 =>
            match updateAccount st1 old_acc new_acc with
            | .error e => .error (EngineError.ofDb e)
            | .ok st2 =>
              match insertOpFp st2 ("withdraw", acc_id, tx_id) with
              | .error e => .error (EngineError.ofDb e)
              | .ok st3 => .ok st3

/-- `Engine::dispute` — note: no processed-operation fingerprint is
consulted or recorded by this operation in the source. -/
def Engine.dispute (st : St) (acc_id tx_id : Nat) : Except EngineError St :=
  match alookup tx_id st.txs with
  | none => .error .TransactionNotFound
  | some old_tx =>
    if old_tx.account_id ≠ acc_id then
      .error (.TransactionIsBoundToAnotherAccount old_tx.account_id)
    else
      match alookup acc_id st.accounts with
      | none => .error .AccountNotFound
      | some old_acc =>
        match old_tx.set_state .Disputed with
        | .error e => .error (EngineError.ofTx e)
        | .ok new_tx =>
          match Account.dispute old_acc new_tx.amount with
          | .error e => .error (EngineError.ofAccount e)
          | .ok new_acc =>
            match updateTx st old_tx new_tx with
            | .error e => .error (EngineError.ofDb e)
            | .ok st1 =>
              match updateAccount st1 old_acc new_acc with
              | .error e => .error (EngineError.ofDb e)
              | .ok st2 => .ok st2

/-- `Engine::resolve` — once the transaction and account are loaded the
source calls `set_state(TransactionState::Posted)` (not `Resolved`) and
`account.resolve(tx.amount)`. -/
def Engine.resolve (st : St) (acc_id tx_id : Nat) : Except EngineError St :=
  match alookup tx_id st.txs with
  | none => .error .TransactionNotFound
  | some old_tx =>
    if old_tx.account_id ≠ acc_id then
      .error (.TransactionIsBoundToAnotherAccount old_tx.account_id)
    else
      match alookup acc_id st.accounts with
      | none => .error .AccountNotFound
      | some old_acc =>
        match old_tx.set_state .Posted with
        | .error e => .error (EngineError.ofTx e)
        | .ok new_tx =>
          match Account.resolve old_acc new_tx.amount with
          | .error e => .error (EngineError.ofAccount e)
          | .ok new_acc =>
            match updateTx st old_tx new_tx with
            | .error e => .error (EngineError.ofDb e)
            | .ok st1 =>
              match updateAccount st1 old_acc new_acc with
              | .error e => .error (EngineError.ofDb e)
              | .ok st2 => .ok st2

/-- `Engine::chargeback`. -/
def Engine.chargeback (st : St) (acc_id tx_id : Nat) : Except EngineError St :=
  match alookup tx_id st.txs with
  | none => .error .TransactionNotFound
  | some old_tx =>
    if old_tx.account_id ≠ acc_id then
      .error (.TransactionIsBoundToAnotherAccount old_tx.account_id)
    else
      match alookup acc_id st.accounts with
      | none => .error .AccountNotFound
      | some old_acc =>
        match old_tx.set_state .Chargeback with
        | .error e => .error (EngineError.ofTx e)
        | .ok new_tx =>
          match Account.chargeback old_acc new_tx.amount with
          | .error e => .error (EngineError.ofAccount e)
          | .ok new_acc =>
            match updateTx st old_tx new_tx with
            | .error e => .error (EngineError.ofDb e)
            | .ok st1 =>
              match updateAccount st1 old_acc new_acc with
              | .error e => .error (EngineError.ofDb e)
              | .ok st2 => .ok st2

/-- The `Operation` enum of `src/engine.rs`. -/
inductive Op where
  | deposit (acc_id tx_id : Nat) (amount : Int)
  | withdraw (acc_id tx_id : Nat) (amount : Int)
  | dispute (acc_id tx_id : Nat)
  | resolve (acc_id tx_id : Nat)
  | chargeback (acc_id tx_id : Nat)
deriving DecidableEq, Repr

/-- `Engine::execute_operation` — dispatch to the five operations. -/
def Engine.execute_operation (st : St) (op : Op) : Except EngineError St :=
  match op with
  | .deposit a t m => Engine.deposit st a t m
  | .withdraw a t m => Engine.withdraw st a t m
  | .dispute a t => Engine.dispute st a t
  | .resolve a t => Engine.resolve st a t
  | .chargeback a t => Engine.chargeback st a t

/-- One engine operation at the committed-state level: on success the
`DbTx` is committed, on error it is dropped and the committed state is the
one from before the operation. -/
def Engine.run (st : St) (op : Op) : St × Option EngineError :=
  match Engine.execute_operation st op with
  | .ok st' => (st', none)
  | .error e => (st, some e)

/-- Committed state after an operation (the ingestor discards errors and
keeps feeding the stream). -/
def applyOp (st : St) (op : Op) : St := (Engine.run st op).1

/-- Committed state after a stream of operations. -/
def applyOps (st : St) (l : List Op) : St := l.foldl applyOp st

/-- Committed states reachable from the empty storage by any operation
stream. -/
inductive Reachable : St → Prop
  | base : Reachable emptySt
  | step (st : St) (op : Op) : Reachable st → Reachable (applyOp st op)

/-- Money-movement operations (the two that create transactions). -/
def Op.isMovement : Op → Bool
  | .deposit _ _ _ => true
  | .withdraw _ _ _ => true
  | _ => false

/-- Committed states reachable using only deposits and withdrawals. -/
inductive ReachableDW : St → Prop
  | base : ReachableDW emptySt
  | step (st : St) (op : Op) : op.isMovement = true → ReachableDW st →
      ReachableDW (applyOp st op)

/-- All committed accounts have non-negative available and held balances. -/
def AccNonneg (st : St) : Prop :=
  ∀ (k : Nat) (acc : Account), alookup k st.accounts = some acc →
    0 ≤ acc.available ∧ 0 ≤ acc.held

/-- Every fingerprint in the processed-operation log belongs to an
operation that inserted its transaction in the same commit, so the
transaction id of any logged fingerprint is present in the transaction
keyspace. -/
def OpLogTx (st : St) : Prop :=
  ∀ (tag : String) (a t : Nat), hasOp (tag, a, t) st.ops = true →
    (alookup t st.txs).isSome = true

/-- Decimal digit characters used when printing a number. -/
def digitChar : Nat → Char
  | 0 => '0'
  | 1 => '1'
  | 2 => '2'
  | 3 => '3'
  | 4 => '4'
  | 5 => '5'
  | 6 => '6'
  | 7 => '7'
  | 8 => '8'
  | _ => '9'

/-- Numeric value of a digit character. -/
def digitVal (c : Char) : Nat := c.toNat - 48

/-- Whether a character is a decimal digit. -/
def isDigitCh (c : Char) : Bool := decide (48 ≤ c.toNat) && decide (c.toNat ≤ 57)

/-- Big-endian decimal digit characters of a natural number (empty for 0). -/
def natChars (n : Nat) : List Char := ((Nat.digits 10 n).map digitChar).reverse

/-- Integer-part characters — the display always prints at least one digit. -/
def intChars (i : Nat) : List Char := if i = 0 then ['0'] else natChars i

/-- Fractional-part characters: exactly four digits, zero padded on the
left (used with `f < 10000`). -/
def fracChars (f : Nat) : List Char :=
  List.replicate (4 - (natChars f).length) '0' ++ natChars f

/-- `Display for Decimal4`: the code prints `{:.4}` of the wrapped
decimal — optional minus sign, integer part, a dot and exactly four
fractional digits.  Since every stored `Decimal4` already has at most
four fractional digits (pre-rounded on construction), printing performs
no rounding.  The argument is the value in `10^-4` units. -/
def Decimal4.format (n : Int) : String :=
  String.mk ((if n < 0 then ['-'] else []) ++
    intChars (n.natAbs / 10000) ++ '.' :: fracChars (n.natAbs % 10000))

/-- Value of a big-endian digit-character list. -/
def valDigits (cs : List Char) : Nat := cs.foldl (fun a c => a * 10 + digitVal c) 0

/-- Split a character list at the first dot, keeping what follows it. -/
def splitDot : List Char → List Char × Option (List Char)
  | [] => ([], none)
  | c :: rest =>
      if c = '.' then ([], some rest)
      else
        let r := splitDot rest
        (c :: r.1, r.2)

/-- Half-toward-zero rounding of `num / den` on magnitudes
(`RoundingStrategy::MidpointTowardZero` of `Decimal4::from`). -/
def roundHalfTowardZero (num den : Nat) : Nat :=
  if 2 * (num % den) ≤ den then num / den else num / den + 1

/-- Unsigned part of `FromStr for Decimal4`: digits, an optional dot and
further digits, evaluated in `10^-4` units with half-toward-zero rounding
when more than four fractional digits are given.  Scientific notation,
underscore separators and the 96-bit mantissa cap of the wrapped decimal
type are outside the model. -/
def parseUnits (body : List Char) : Option Nat :=
  match splitDot body with
  | (ip, fr0) =>
    let fr := fr0.getD []
    if ip.all isDigitCh && fr.all isDigitCh && !ip.isEmpty then
      some (if fr.length ≤ 4 then
              valDigits ip * 10000 + valDigits fr * 10 ^ (4 - fr.length)
            else
              roundHalfTowardZero (valDigits ip * 10 ^ fr.length + valDigits fr)
                (10 ^ (fr.length - 4)))
    else none

/-- `FromStr for Decimal4` (`Decimal::from_str` followed by rounding to
four fractional digits): an optional sign followed by a plain decimal
literal, returning the value in `10^-4` units. -/
def Decimal4.parse (s : String) : Option Int :=
  match s.data with
  | [] => none
  | c :: rest =>
      if c = '-' then (parseUnits rest).map (fun u => -(u : Int))
      else if c = '+' then (parseUnits rest).map (fun u => (u : Int))
      else (parseUnits (c :: rest)).map (fun u => (u : Int))

example : Engine.deposit emptySt 1 1 100 =
    .ok { accounts := [(1, { id := 1, available := 100, held := 0, locked := false, version := 1 })],
          txs := [(1, { id := 1, account_id := 1, tx_type := .Deposit, amount := 100,
                        state := .Posted, version := 0 })],
          ops := [("deposit", 1, 1)] } := by decide

example : Engine.withdraw emptySt 1 1 5 = .error .AccountNotFound := by decide

example :
    alookup 1 (applyOps emptySt [Op.deposit 1 1 100, Op.dispute 1 1]).accounts =
      some { id := 1, available := 0, held := 100, locked := false, version := 2 } := by decide

theorem alookup_cons {α : Type} (j a : Nat) (b : α) (l : List (Nat × α)) :
    alookup j ((a, b) :: l) = if a = j then some b else alookup j l := rfl

theorem alookup_aset {α : Type} (k j : Nat) (v : α) (l : List (Nat × α)) :
    alookup j (aset k v l) =
      if j = k then (alookup k l).map (fun _ => v) else alookup j l := by
  induction l with
  | nil => simp [aset, alookup]
  | cons p rest ih =>
    obtain ⟨k2, w⟩ := p
    simp only [aset, List.map_cons] at *
    by_cases h1 : k2 = k
    · subst h1
      by_cases h2 : j = k2
      · subst h2
        simp [alookup_cons, ih]
      · simp [alookup_cons, ih, h2, Ne.symm h2]
    · by_cases h3 : k2 = j
      · subst h3
        simp [alookup_cons, ih, h1]
      · simp [alookup_cons, ih, h1, h3]

theorem alookup_aset_isSome {α : Type} (k j : Nat) (v : α) (l : List (Nat × α)) :
    (alookup j (aset k v l)).isSome = (alookup j l).isSome := by
  rw [alookup_aset]
  by_cases h : j = k
  · rw [if_pos h, h]
    cases alookup k l <;> simp
  · rw [if_neg h]

theorem insertTx_ok (st : St) (tx : Transaction) (st' : St)
    (h : insertTx st tx = .ok st') :
    st' = { st with txs := (tx.id, tx) :: st.txs } ∧ alookup tx.id st.txs = none := by
  unfold insertTx at h
  split at h
  next => cases h
  next heq => cases h; exact ⟨rfl, heq⟩

theorem insertAccount_ok (st : St) (acc : Account) (st' : St)
    (h : insertAccount st acc = .ok st') :
    st' = { st with accounts := (acc.id, acc) :: st.accounts } ∧
      alookup acc.id st.accounts = none := by
  unfold insertAccount at h
  split at h
  next => cases h
  next heq => cases h; exact ⟨rfl, heq⟩

theorem updateAccount_ok (st : St) (o n : Account) (st' : St)
    (h : updateAccount st o n = .ok st') :
    st' = { st with accounts := aset o.id n st.accounts } ∧
      alookup o.id st.accounts = some o := by
  unfold updateAccount at h
  split at h
  next cur heq =>
    split at h
    next hc => cases h; subst hc; exact ⟨rfl, heq⟩
    next hc => cases h
  next heq => cases h

theorem updateTx_ok (st : St) (o n : Transaction) (st' : St)
    (h : updateTx st o n = .ok st') :
    st' = { st with txs := aset o.id n st.txs } ∧ alookup o.id st.txs = some o := by
  unfold updateTx at h
  split at h
  next cur heq =>
    split at h
    next hc => cases h; subst hc; exact ⟨rfl, heq⟩
    next hc => cases h
  next heq => cases h

theorem insertOpFp_ok (st : St) (fp : OpFp) (st' : St)
    (h : insertOpFp st fp = .ok st') :
    st' = { st with ops := fp :: st.ops } ∧ hasOp fp st.ops = false := by
  unfold insertOpFp at h
  split at h
  next => cases h
  next heq => cases h; exact ⟨rfl, by simpa using heq⟩

theorem Account.deposit_ok (acc : Account) (m : Int) (acc' : Account)
    (h : Account.deposit acc m = .ok acc') :
    acc' = { acc with available := acc.available + m,
                      version := (acc.version + 1) % 65536 } ∧
      0 < m ∧ acc.locked = false := by
  unfold Account.deposit at h
  split at h
  next hp => cases h
  next hp =>
    split at h
    next hl => cases h
    next hl =>
      cases h
      simp [is_positive] at hp
      simp at hl
      exact ⟨rfl, hp, hl⟩

theorem Account.withdraw_ok (acc : Account) (m : Int) (acc' : Account)
    (h : Account.withdraw acc m = .ok acc') :
    acc' = { acc with available := acc.available - m,
                      version := (acc.version + 1) % 65536 } ∧
      0 < m ∧ m ≤ acc.available ∧ acc.locked = false := by
  unfold Account.withdraw at h
  split at h
  next hp => cases h
  next hp =>
    split at h
    next hl => cases h
    next hl =>
      split at h
      next hf => cases h
      next hf =>
        cases h
        simp [is_positive] at hp
        simp at hl
        exact ⟨rfl, hp, by omega, hl⟩

theorem Account.dispute_ok (acc : Account) (m : Int) (acc' : Account)
    (h : Account.dispute acc m = .ok acc') :
    acc' = { acc with available := acc.available - m, held := acc.held + m,
                      version := (acc.version + 1) % 65536 } ∧ 0 < m := by
  unfold Account.dispute at h
  split at h
  next hp => cases h
  next hp =>
    cases h
    simp [is_positive] at hp
    exact ⟨rfl, hp⟩

theorem Account.resolve_ok (acc : Account) (m : Int) (acc' : Account)
    (h : Account.resolve acc m = .ok acc') :
    acc' = { acc with held := acc.held - m, available := acc.available + m,
                      version := (acc.version + 1) % 65536 } ∧ 0 < m := by
  unfold Account.resolve at h
  split at h
  next hp => cases h
  next hp =>
    cases h
    simp [is_positive] at hp
    exact ⟨rfl, hp⟩

theorem Account.chargeback_ok (acc : Account) (m : Int) (acc' : Account)
    (h : Account.chargeback acc m = .ok acc') :
    acc' = { acc with held := acc.held - m, locked := true,
                      version := (acc.version + 1) % 65536 } ∧ 0 < m := by
  unfold Account.chargeback at h
  split at h
  next hp => cases h
  next hp =>
    cases h
    simp [is_positive] at hp
    exact ⟨rfl, hp⟩

theorem applyOp_eq (st : St) (op : Op) :
    applyOp st op =
      match Engine.execute_operation st op with
      | .ok st' => st'
      | .error _ => st := by
  unfold applyOp Engine.run
  split <;> rfl

theorem deposit_ok_fp (st : St) (a t : Nat) (m : Int) (st' : St)
    (h : Engine.deposit st a t m = .ok st') :
    is_positive m = true ∧ hasOp ("deposit", a, t) st'.ops = true := by
  unfold Engine.deposit at h
  split at h
  next hp => cases h
  next hp =>
    have hpos : is_positive m = true := by
      cases hb : is_positive m
      · rw [hb] at hp; simp at hp
      · rfl
    refine ⟨hpos, ?_⟩
    split at h
    next hfp => cases h; exact hfp
    next hfp =>
      split at h
      next => cases h
      next htx =>
        split at h
        next e heq => cases h
        next st1 heq =>
          split at h
          next old_acc heqa =>
            split at h
            next e heq2 => cases h
            next new_acc heq2 =>
              split at h
              next e heq3 => cases h
              next st2 heq3 =>
                split at h
                next e heq4 => cases h
                next st3 heq4 =>
                  cases h
                  obtain ⟨hst3, -⟩ := insertOpFp_ok st2 _ _ heq4
                  subst hst3
                  simp [hasOp]
          next heqa =>
            split at h
            next e heq2 => cases h
            next new_acc heq2 =>
              split at h
              next e heq3 => cases h
              next st2 heq3 =>
                split at h
                next e heq4 => cases h
                next st3 heq4 =>
                  cases h
                  obtain ⟨hst3, -⟩ := insertOpFp_ok st2 _ _ heq4
                  subst hst3
                  simp [hasOp]

theorem withdraw_ok_fp (st : St) (a t : Nat) (m : Int) (st' : St)
    (h : Engine.withdraw st a t m = .ok st') :
    is_positive m = true ∧ hasOp ("withdraw", a, t) st'.ops = true := by
  unfold Engine.withdraw at h
  split at h
  next hp => cases h
  next hp =>
    have hpos : is_positive m = true := by
      cases hb : is_positive m
      · rw [hb] at hp; simp at hp
      · rfl
    refine ⟨hpos, ?_⟩
    split at h
    next hfp => cases h; exact hfp
    next hfp =>
      split at h
      next => cases h
      next htx =>
        split at h
        next heqa => cases h
        next old_acc heqa =>
          split at h
          next e heq2 => cases h
          next new_acc heq2 =>
            split at h
            next e heq3 => cases h
            next st1 heq3 =>
              split at h
              next e heq4 => cases h
              next st2 heq4 =>
                split at h
                next e heq5 => cases h
                next st3 heq5 =>
                  cases h
                  obtain ⟨hst3, -⟩ := insertOpFp_ok st2 _ _ heq5
                  subst hst3
                  simp [hasOp]

theorem deposit_preserves_nonneg (st : St) (a t : Nat) (m : Int) (st' : St)
    (h : Engine.deposit st a t m = .ok st') (hinv : AccNonneg st) : AccNonneg st' := by
  unfold Engine.deposit at h
  split at h
  next => cases h
  next hp =>
    split at h
    next hfp => cases h; exact hinv
    next hfp =>
      split at h
      next => cases h
      next htx =>
        split at h
        next e heq => cases h
        next st1 heq =>
          obtain ⟨hst1, -⟩ := insertTx_ok st _ st1 heq
          subst hst1
          split at h
          next old_acc heqa =>
            split at h
            next e heq2 => cases h
            next new_acc heq2 =>
              obtain ⟨hnew, hm, -⟩ := Account.deposit_ok old_acc m new_acc heq2
              split at h
              next e heq3 => cases h
              next st2 heq3 =>
                obtain ⟨hst2, hold⟩ := updateAccount_ok _ old_acc new_acc st2 heq3
                subst hst2
                split at h
                next e heq4 => cases h
                next st3 heq4 =>
                  obtain ⟨hst3, -⟩ := insertOpFp_ok _ _ _ heq4
                  cases h
                  subst hst3
                  intro k acc hk
                  simp only at hk hold
                  rw [alookup_aset] at hk
                  by_cases hkk : k = old_acc.id
                  · rw [if_pos hkk, hold] at hk
                    simp at hk
                    subst hk
                    obtain ⟨h1, h2⟩ := hinv old_acc.id old_acc hold
                    subst hnew
                    constructor <;> simp <;> omega
                  · rw [if_neg hkk] at hk
                    exact hinv k acc hk
          next heqa =>
            split at h
            next e heq2 => cases h
            next new_acc heq2 =>
              obtain ⟨hnew, hm, -⟩ := Account.deposit_ok _ m new_acc heq2
              split at h
              next e heq3 => cases h
              next st2 heq3 =>
                obtain ⟨hst2, -⟩ := insertAccount_ok _ new_acc st2 heq3
                subst hst2
                split at h
                next e heq4 => cases h
                next st3 heq4 =>
                  obtain ⟨hst3, -⟩ := insertOpFp_ok _ _ _ heq4
                  cases h
                  subst hst3
                  intro k acc hk
                  simp only at hk
                  rw [alookup_cons] at hk
                  split at hk
                  · cases hk
                    subst hnew
                    exact ⟨by simp [Account.new]; omega, by simp [Account.new]⟩
                  · exact hinv k acc hk

theorem withdraw_preserves_nonneg (st : St) (a t : Nat) (m : Int) (st' : St)
    (h : Engine.withdraw st a t m = .ok st') (hinv : AccNonneg st) : AccNonneg st' := by
  unfold Engine.withdraw at h
  split at h
  next => cases h
  next hp =>
    split at h
    next hfp => cases h; exact hinv
    next hfp =>
      split at h
      next => cases h
      next htx =>
        split at h
        next heqa => cases h
        next old_acc heqa =>
          split at h
          next e heq2 => cases h
          next new_acc heq2 =>
            obtain ⟨hnew, hm, hbal, -⟩ := Account.withdraw_ok old_acc m new_acc heq2
            split at h
            next e heq3 => cases h
            next st1 heq3 =>
              obtain ⟨hst1, -⟩ := insertTx_ok st _ st1 heq3
              subst hst1
              split at h
              next e heq4 => cases h
              next st2 heq4 =>
                obtain ⟨hst2, hold⟩ := updateAccount_ok _ old_acc new_acc st2 heq4
                subst hst2
                split at h
                next e heq5 => cases h
                next st3 heq5 =>
                  obtain ⟨hst3, -⟩ := insertOpFp_ok _ _ _ heq5
                  cases h
                  subst hst3
                  intro k acc hk
                  simp only at hk hold
                  rw [alookup_aset] at hk
                  by_cases hkk : k = old_acc.id
                  · rw [if_pos hkk, hold] at hk
                    simp at hk
                    subst hk
                    obtain ⟨h1, h2⟩ := hinv old_acc.id old_acc hold
                    subst hnew
                    constructor <;> simp <;> omega
                  · rw [if_neg hkk] at hk
                    exact hinv k acc hk

/-- C3 (amended): in every committed state reachable using only deposit
and withdrawal operations, every account satisfies `available ≥ 0` and
`held ≥ 0`.  The unrestricted claim is false: `Account::dispute`
subtracts the disputed amount from `available` without any funds check
(see the counterexample). -/
theorem c3_movement_reachable_nonneg (st : St) (hr : ReachableDW st) :
    ∀ (k : Nat) (acc : Account), alookup k st.accounts = some acc →
      0 ≤ acc.available ∧ 0 ≤ acc.held := by
  induction hr with
  | base => intro k acc hk; cases hk
  | step st2 op hm hr2 ih =>
    rw [applyOp_eq]
    cases hx : Engine.execute_operation st2 op with
    | error e => simpa only [hx] using ih
    | ok s =>
      simp only [hx]
      cases op with
      | deposit a t m =>
        exact deposit_preserves_nonneg st2 a t m s
          (by simpa [Engine.execute_operation] using hx) ih
      | withdraw a t m =>
        exact withdraw_preserves_nonneg st2 a t m s
          (by simpa [Engine.execute_operation] using hx) ih
      | dispute a t => simp [Op.isMovement] at hm
      | resolve a t => simp [Op.isMovement] at hm
      | chargeback a t => simp [Op.isMovement] at hm

/-- C3 witness for the amended theorem: the account created by a concrete
deposit-only history has non-negative balances. -/
theorem c3_witness :
    0 ≤ ({ id := 1, available := 100, held := 0, locked := false,
           version := 1 } : Account).available ∧
    0 ≤ ({ id := 1, available := 100, held := 0, locked := false,
           version := 1 } : Account).held :=
  c3_movement_reachable_nonneg (applyOp emptySt (Op.deposit 1 1 100))
    (ReachableDW.step emptySt (Op.deposit 1 1 100) rfl ReachableDW.base) 1
    { id := 1, available := 100, held := 0, locked := false, version := 1 } (by decide)

/-- C3 counterexample: the state reached by
deposit(1,1,100); withdraw(1,2,60); dispute(1,1) is reachable and its
only account has `available = -60 < 0` — `Account::dispute` performs no
funds check, so disputing a deposit that has already been partially
withdrawn drives `available` negative. -/
theorem c3_counterexample :
    Reachable (applyOps emptySt
        [Op.deposit 1 1 100, Op.withdraw 1 2 60, Op.dispute 1 1]) ∧
    alookup 1 (applyOps emptySt
        [Op.deposit 1 1 100, Op.withdraw 1 2 60, Op.dispute 1 1]).accounts =
      some { id := 1, available := -60, held := 100, locked := false, version := 3 } ∧
    ({ id := 1, available := -60, held := 100, locked := false,
       version := 3 } : Account).available < 0 := by
  refine ⟨?_, by decide, by decide⟩
  exact Reachable.step _ _ (Reachable.step _ _ (Reachable.step _ _ Reachable.base))

theorem hasOp_cons (fp f : OpFp) (l : List OpFp) :
    hasOp fp (f :: l) = if f = fp then true else hasOp fp l := rfl

theorem alookup_cons_isSome {α : Type} (j a : Nat) (b : α) (l : List (Nat × α))
    (hs : (alookup j l).isSome = true) : (alookup j ((a, b) :: l)).isSome = true := by
  rw [alookup_cons]
  split <;> simp [hs]

theorem deposit_preserves_opLogTx (st : St) (a t : Nat) (m : Int) (st' : St)
    (h : Engine.deposit st a t m = .ok st') (hinv : OpLogTx st) : OpLogTx st' := by
  unfold Engine.deposit at h
  split at h
  next => cases h
  next hp =>
    split at h
    next hfp => cases h; exact hinv
    next hfp =>
      split at h
      next => cases h
      next htx =>
        split at h
        next e heq => cases h
        next st1 heq =>
          obtain ⟨hst1, -⟩ := insertTx_ok st _ st1 heq
          subst hst1
          split at h
          next old_acc heqa =>
            split at h
            next e heq2 => cases h
            next new_acc heq2 =>
              split at h
              next e heq3 => cases h
              next st2 heq3 =>
                obtain ⟨hst2, -⟩ := updateAccount_ok _ old_acc new_acc st2 heq3
                subst hst2
                split at h
                next e heq4 => cases h
                next st3 heq4 =>
                  obtain ⟨hst3, -⟩ := insertOpFp_ok _ _ _ heq4
                  cases h
                  subst hst3
                  intro tag a2 t2 hfp2
                  simp only at hfp2 ⊢
                  rw [hasOp_cons] at hfp2
                  split at hfp2
                  next hfeq =>
                    cases hfeq
                    simp [Transaction.new, alookup_cons]
                  next hfeq =>
                    exact alookup_cons_isSome _ _ _ _ (hinv tag a2 t2 hfp2)
          next heqa =>
            split at h
            next e heq2 => cases h
            next new_acc heq2 =>
              split at h
              next e heq3 => cases h
              next st2 heq3 =>
                obtain ⟨hst2, -⟩ := insertAccount_ok _ new_acc st2 heq3
                subst hst2
                split at h
                next e heq4 => cases h
                next st3 heq4 =>
                  obtain ⟨hst3, -⟩ := insertOpFp_ok _ _ _ heq4
                  cases h
                  subst hst3
                  intro tag a2 t2 hfp2
                  simp only at hfp2 ⊢
                  rw [hasOp_cons] at hfp2
                  split at hfp2
                  next hfeq =>
                    cases hfeq
                    simp [Transaction.new, alookup_cons]
                  next hfeq =>
                    exact alookup_cons_isSome _ _ _ _ (hinv tag a2 t2 hfp2)

theorem withdraw_preserves_opLogTx (st : St) (a t : Nat) (m : Int) (st' : St)
    (h : Engine.withdraw st a t m = .ok st') (hinv : OpLogTx st) : OpLogTx st' := by
  unfold Engine.withdraw at h
  split at h
  next => cases h
  next hp =>
    split at h
    next hfp => cases h; exact hinv
    next hfp =>
      split at h
      next => cases h
      next htx =>
        split at h
        next heqa => cases h
        next old_acc heqa =>
          split at h
          next e heq2 => cases h
          next new_acc heq2 =>
            split at h
            next e heq3 => cases h
            next st1 heq3 =>
              obtain ⟨hst1, -⟩ := insertTx_ok st _ st1 heq3
              subst hst1
              split at h
              next e heq4 => cases h
              next st2 heq4 =>
                obtain ⟨hst2, -⟩ := updateAccount_ok _ old_acc new_acc st2 heq4
                subst hst2
                split at h
                next e heq5 => cases h
                next st3 heq5 =>
                  obtain ⟨hst3, -⟩ := insertOpFp_ok _ _ _ heq5
                  cases h
                  subst hst3
                  intro tag a2 t2 hfp2
                  simp only at hfp2 ⊢
                  rw [hasOp_cons] at hfp2
                  split at hfp2
                  next hfeq =>
                    cases hfeq
                    simp [Transaction.new, alookup_cons]
                  next hfeq =>
                    exact alookup_cons_isSome _ _ _ _ (hinv tag a2 t2 hfp2)

theorem dispute_preserves_opLogTx (st : St) (a t : Nat) (st' : St)
    (h : Engine.dispute st a t = .ok st') (hinv : OpLogTx st) : OpLogTx st' := by
  unfold Engine.dispute at h
  split at h
  next heq => cases h
  next old_tx heq =>
    split at h
    next => cases h
    next hbound =>
      split at h
      next heqa => cases h
      next old_acc heqa =>
        split at h
        next e heq2 => cases h
        next new_tx heq2 =>
          split at h
          next e heq3 => cases h
          next new_acc heq3 =>
            split at h
            next e heq4 => cases h
            next st1 heq4 =>
              obtain ⟨hst1, -⟩ := updateTx_ok st old_tx new_tx st1 heq4
              subst hst1
              split at h
              next e heq5 => cases h
              next st2 heq5 =>
                obtain ⟨hst2, -⟩ := updateAccount_ok _ old_acc new_acc st2 heq5
                cases h
                subst hst2
                intro tag a2 t2 hfp2
                simp only at hfp2 ⊢
                rw [alookup_aset_isSome]
                exact hinv tag a2 t2 hfp2

theorem resolve_preserves_opLogTx (st : St) (a t : Nat) (st' : St)
    (h : Engine.resolve st a t = .ok st') (hinv : OpLogTx st) : OpLogTx st' := by
  unfold Engine.resolve at h
  split at h
  next heq => cases h
  next old_tx heq =>
    split at h
    next => cases h
    next hbound =>
      split at h
      next heqa => cases h
      next old_acc heqa =>
        split at h
        next e heq2 => cases h
        next new_tx heq2 =>
          split at h
          next e heq3 => cases h
          next new_acc heq3 =>
            split at h
            next e heq4 => cases h
            next st1 heq4 =>
              obtain ⟨hst1, -⟩ := updateTx_ok st old_tx new_tx st1 heq4
              subst hst1
              split at h
              next e heq5 => cases h
              next st2 heq5 =>
                obtain ⟨hst2, -⟩ := updateAccount_ok _ old_acc new_acc st2 heq5
                cases h
                subst hst2
                intro tag a2 t2 hfp2
                simp only at hfp2 ⊢
                rw [alookup_aset_isSome]
                exact hinv tag a2 t2 hfp2

theorem chargeback_preserves_opLogTx (st : St) (a t : Nat) (st' : St)
    (h : Engine.chargeback st a t = .ok st') (hinv : OpLogTx st) : OpLogTx st' := by
  unfold Engine.chargeback at h
  split at h
  next heq => cases h
  next old_tx heq =>
    split at h
    next => cases h
    next hbound =>
      split at h
      next heqa => cases h
      next old_acc heqa =>
        split at h
        next e heq2 => cases h
        next new_tx heq2 =>
          split at h
          next e heq3 => cases h
          next new_acc heq3 =>
            split at h
            next e heq4 => cases h
            next st1 heq4 =>
              obtain ⟨hst1, -⟩ := updateTx_ok st old_tx new_tx st1 heq4
              subst hst1
              split at h
              next e heq5 => cases h
              next st2 heq5 =>
                obtain ⟨hst2, -⟩ := updateAccount_ok _ old_acc new_acc st2 heq5
                cases h
                subst hst2
                intro tag a2 t2 hfp2
                simp only at hfp2 ⊢
                rw [alookup_aset_isSome]
                exact hinv tag a2 t2 hfp2

theorem reachable_opLogTx (st : St) (hr : Reachable st) : OpLogTx st := by
  induction hr with
  | base => intro tag a t hfp; simp [hasOp, emptySt] at hfp
  | step st2 op hr2 ih =>
    rw [applyOp_eq]
    cases hx : Engine.execute_operation st2 op with
    | error e => simpa only [hx] using ih
    | ok s =>
      simp only [hx]
      cases op with
      | deposit a t m =>
        exact deposit_preserves_opLogTx st2 a t m s
          (by simpa [Engine.execute_operation] using hx) ih
      | withdraw a t m =>
        exact withdraw_preserves_opLogTx st2 a t m s
          (by simpa [Engine.execute_operation] using hx) ih
      | dispute a t =>
        exact dispute_preserves_opLogTx st2 a t s
          (by simpa [Engine.execute_operation] using hx) ih
      | resolve a t =>
        exact resolve_preserves_opLogTx st2 a t s
          (by simpa [Engine.execute_operation] using hx) ih
      | chargeback a t =>
        exact chargeback_preserves_opLogTx st2 a t s
          (by simpa [Engine.execute_operation] using hx) ih

/-- C8: in any reachable committed state with no account `acc` and no
transaction `tx`, `deposit(acc, tx, a)` with `a > 0` succeeds and creates
an account with id `acc`, `available = a`, `held = 0`, `locked = false`
(and version 1). -/
theorem c8_deposit_creates_account (st : St) (acc tx : Nat) (a : Int)
    (hr : Reachable st) (hacc : alookup acc st.accounts = none)
    (htx : alookup tx st.txs = none) (ha : 0 < a) :
    (Engine.deposit st acc tx a).map (fun s => alookup acc s.accounts) =
      .ok (some { id := acc, available := a, held := 0, locked := false, version := 1 }) := by
  have hfp : hasOp ("deposit", acc, tx) st.ops = false := by
    cases hb : hasOp ("deposit", acc, tx) st.ops
    · rfl
    · have hs := reachable_opLogTx st hr "deposit" acc tx hb
      rw [htx] at hs
      cases hs
  have hpos : is_positive a = true := by simp [is_positive]; omega
  have hneg : ¬ (a ≤ 0) := by omega
  unfold Engine.deposit insertTx insertAccount insertOpFp
  simp [hpos, hfp, htx, hacc, Account.deposit, Account.new, Transaction.new,
    alookup_cons, is_positive, hneg, Except.map]

/-- C8 witness: a deposit of 100 into the empty storage creates account 1
with available 100, held 0, unlocked. -/
theorem c8_witness :
    (Engine.deposit emptySt 1 1 100).map (fun s => alookup 1 s.accounts) =
      .ok (some { id := 1, available := 100, held := 0, locked := false, version := 1 }) :=
  c8_deposit_creates_account emptySt 1 1 100 Reachable.base rfl rfl (by norm_num)

/-- C2 (amended): replaying a successfully committed deposit or
withdrawal (same kind, account id, transaction id and amount) returns
success via the processed-operation log and leaves the committed state
exactly as it was after the first application.  Dispute, resolve and
chargeback do not participate in the processed-operation log (see the
counterexample). -/
theorem c2_deposit_withdraw_replay (st st' : St) (a t : Nat) (m : Int) :
    (Engine.deposit st a t m = .ok st' → Engine.deposit st' a t m = .ok st') ∧
    (Engine.withdraw st a t m = .ok st' → Engine.withdraw st' a t m = .ok st') := by
  constructor <;> intro h
  · obtain ⟨hpos, hfp⟩ := deposit_ok_fp st a t m st' h
    simp [Engine.deposit, hpos, hfp]
  · obtain ⟨hpos, hfp⟩ := withdraw_ok_fp st a t m st' h
    simp [Engine.withdraw, hpos, hfp]

/-- C2 witness for the amended theorem: concrete deposit and withdrawal
replays return success and leave the committed state unchanged. -/
theorem c2_witness :
    Engine.deposit (applyOps emptySt [Op.deposit 1 1 100]) 1 1 100 =
      .ok (applyOps emptySt [Op.deposit 1 1 100]) ∧
    Engine.withdraw (applyOps emptySt [Op.deposit 1 1 100, Op.withdraw 1 2 40]) 1 2 40 =
      .ok (applyOps emptySt [Op.deposit 1 1 100, Op.withdraw 1 2 40]) :=
  ⟨(c2_deposit_withdraw_replay emptySt
      (applyOps emptySt [Op.deposit 1 1 100]) 1 1 100).1 (by decide),
   (c2_deposit_withdraw_replay (applyOps emptySt [Op.deposit 1 1 100])
      (applyOps emptySt [Op.deposit 1 1 100, Op.withdraw 1 2 40]) 1 2 40).2 (by decide)⟩

/-- C1: the claim fails on the code as written.  After
deposit(1,1,100); dispute(1,1), the call resolve(1,1) does not succeed:
`Engine::resolve` asks `set_state` for a `Disputed → Posted` transition
(the source passes `Posted`, not `Resolved`), and `src/transaction.rs`
has no arm for that pair, so resolve aborts with
`ForbiddenTxStateTransition { from: Disputed, to: Posted }` instead of
restoring the balances — contradicting the repository's own tests
(`resolve_ok`, `resolve_no_idempotency`), which expect resolve of a
disputed deposit to succeed. -/
theorem c1_resolve_after_dispute_fails :
    Engine.resolve (applyOps emptySt [Op.deposit 1 1 100, Op.dispute 1 1]) 1 1 =
      .error (.ForbiddenTxStateTransition .Disputed .Posted) := by decide

/-- C4: the claim fails on the code as written.  For the committed
Withdrawal transaction 2 (amount 30), `Engine::resolve` does not fail
with `InvalidTxType`: `set_state(Posted)` hits the same-state early
`Ok` in `src/transaction.rs` before the withdrawal-type check, so the
resolve commits, moving 30 from held (which becomes negative) to
available.  Dispute and chargeback of the withdrawal do fail with
`InvalidTxType` as claimed. -/
theorem c4_withdrawal_resolve_accepted :
    Engine.resolve (applyOps emptySt [Op.deposit 1 1 100, Op.withdraw 1 2 30]) 1 2 ≠
      .error .InvalidTxType ∧
    alookup 1 (applyOps emptySt
        [Op.deposit 1 1 100, Op.withdraw 1 2 30, Op.resolve 1 2]).accounts =
      some { id := 1, available := 100, held := -30, locked := false, version := 3 } ∧
    Engine.dispute (applyOps emptySt [Op.deposit 1 1 100, Op.withdraw 1 2 30]) 1 2 =
      .error .InvalidTxType ∧
    Engine.chargeback (applyOps emptySt [Op.deposit 1 1 100, Op.withdraw 1 2 30]) 1 2 =
      .error .InvalidTxType := by decide

/-- C5: the claim fails on the code as written.  `set_state` with the
current state returns `Ok` (the first line of the function), not an
error, so a second engine dispute of an already-Disputed transaction
succeeds and moves the funds from available to held a second time
(available −100, held 200) — contradicting the repository's own test
`dispute_no_idempotency`, which expects
`ForbiddenTxStateTransition { from: Disputed, to: Disputed }` and
unchanged balances 0/100. -/
theorem c5_same_state_transition_accepted :
    Transaction.set_state
        { id := 1, account_id := 1, tx_type := .Deposit, amount := 100,
          state := .Disputed, version := 1 } .Disputed =
      .ok { id := 1, account_id := 1, tx_type := .Deposit, amount := 100,
            state := .Disputed, version := 1 } ∧
    alookup 1 (applyOps emptySt
        [Op.deposit 1 1 100, Op.dispute 1 1, Op.dispute 1 1]).accounts =
      some { id := 1, available := -100, held := 200, locked := false, version := 3 } := by decide

/-- C2 counterexample: after deposit(1,1,100); dispute(1,1) has
committed, replaying dispute(1,1) does not return success with the
committed state left identical — in the code as written it returns
success but moves the funds a second time, so the resulting state
differs from the state after the first application. -/
theorem c2_counterexample :
    ¬ (Engine.dispute (applyOps emptySt [Op.deposit 1 1 100, Op.dispute 1 1]) 1 1 =
        .ok (applyOps emptySt [Op.deposit 1 1 100, Op.dispute 1 1])) := by decide

/-- C6 counterexample: on a Deposit transaction in state `Resolved`,
`set_state(Disputed)` is rejected with
`ForbiddenTxStateTransition { from: Resolved, to: Disputed }` (there is
no `Resolved → Disputed` arm in `src/transaction.rs`, and the
repository's own test `dispute_after_resolved_err` expects exactly this
rejection); moreover the literal five-operation sequence of the claim
ends with available = −100, held = 100 rather than 0/0, because resolve
fails and the second dispute double-moves the funds. -/
theorem c6_counterexample :
    Transaction.set_state
        { id := 1, account_id := 1, tx_type := .Deposit, amount := 100,
          state := .Resolved, version := 2 } .Disputed =
      .error (.ForbiddenTxStateTransition .Resolved .Disputed) ∧
    alookup 1 (applyOps emptySt
        [Op.deposit 1 1 100, Op.dispute 1 1, Op.resolve 1 1,
         Op.dispute 1 1, Op.chargeback 1 1]).accounts =
      some { id := 1, available := -100, held := 100, locked := true, version := 4 } := by decide

/-- C6 (amended): at the state-machine level, re-dispute of a `Resolved`
deposit transaction is rejected with
`ForbiddenTxStateTransition { from: Resolved, to: Disputed }`; the
engine's re-dispute path instead relies on resolve returning the
transaction to `Posted`. -/
theorem c6_resolved_redispute_rejected (t : Transaction)
    (hk : t.tx_type = .Deposit) (hs : t.state = .Resolved) :
    t.set_state .Disputed = .error (.ForbiddenTxStateTransition .Resolved .Disputed) := by
  unfold Transaction.set_state
  rw [hs, hk]
  rfl

/-- C6 witness for the amended theorem: a concrete Resolved deposit
transaction is rejected when re-disputed. -/
theorem c6_witness :
    Transaction.set_state
        { id := 7, account_id := 3, tx_type := .Deposit, amount := 50,
          state := .Resolved, version := 2 } .Disputed =
      .error (.ForbiddenTxStateTransition .Resolved .Disputed) :=
  c6_resolved_redispute_rejected
    { id := 7, account_id := 3, tx_type := .Deposit, amount := 50,
      state := .Resolved, version := 2 } rfl rfl

/-- C7: if an engine operation returns an error, the committed storage
state (accounts, transactions and the processed-operation log) is exactly
the state from before the operation: every error path drops the `DbTx`
without committing, and `commit` is the only point at which writes become
visible. -/
theorem c7_error_leaves_state_unchanged (st : St) (op : Op) (st' : St) (e : EngineError)
    (h : Engine.run st op = (st', some e)) : st' = st := by
  unfold Engine.run at h
  split at h <;> simp_all

/-- C7 witness: a withdrawal from the empty storage fails with
`AccountNotFound` and leaves the committed state empty. -/
theorem c7_witness : emptySt = emptySt :=
  c7_error_leaves_state_unchanged emptySt (Op.withdraw 1 1 5) emptySt
    .AccountNotFound (by decide)

/-- C10: every successful `Account::deposit`, `withdraw`, `dispute` and
`resolve` leaves the `locked` flag unchanged; `Account::chargeback`
always sets `locked` to `true`; and none of the five operations changes
the account's `id`. -/
theorem c10_account_frame (acc : Account) (amount : Int) (acc' : Account) :
    (Account.deposit acc amount = .ok acc' → acc'.locked = acc.locked ∧ acc'.id = acc.id) ∧
    (Account.withdraw acc amount = .ok acc' → acc'.locked = acc.locked ∧ acc'.id = acc.id) ∧
    (Account.dispute acc amount = .ok acc' → acc'.locked = acc.locked ∧ acc'.id = acc.id) ∧
    (Account.resolve acc amount = .ok acc' → acc'.locked = acc.locked ∧ acc'.id = acc.id) ∧
    (Account.chargeback acc amount = .ok acc' → acc'.locked = true ∧ acc'.id = acc.id) := by
  refine ⟨?_, ?_, ?_, ?_, ?_⟩ <;> intro h
  · unfold Account.deposit at h
    split at h <;> simp_all
    split at h <;> simp_all
    cases h
    exact ⟨rfl, rfl⟩
  · unfold Account.withdraw at h
    split at h <;> simp_all
    split at h <;> simp_all
    split at h <;> simp_all
    cases h
    exact ⟨rfl, rfl⟩
  · unfold Account.dispute at h
    split at h <;> simp_all
    cases h
    exact ⟨rfl, rfl⟩
  · unfold Account.resolve at h
    split at h <;> simp_all
    cases h
    exact ⟨rfl, rfl⟩
  · unfold Account.chargeback at h
    split at h <;> simp_all
    cases h
    exact ⟨rfl, rfl⟩

/-- C10 witness: a concrete deposit on a fresh account keeps the lock
flag and the id. -/
theorem c10_witness :
    ({ id := 1, available := 5, held := 0, locked := false, version := 1 } : Account).locked =
      (Account.new 1).locked ∧
    ({ id := 1, available := 5, held := 0, locked := false, version := 1 } : Account).id =
      (Account.new 1).id :=
  (c10_account_frame (Account.new 1) 5
    { id := 1, available := 5, held := 0, locked := false, version := 1 }).1 (by decide)

theorem digit_facts :
    ∀ d, d < 10 → isDigitCh (digitChar d) = true ∧ digitVal (digitChar d) = d := by decide

theorem natChars_digits (n : Nat) : ∀ c ∈ natChars n, isDigitCh c = true := by
  intro c hc
  simp only [natChars, List.mem_reverse, List.mem_map] at hc
  obtain ⟨d, hd, rfl⟩ := hc
  exact (digit_facts d (Nat.digits_lt_base (by norm_num) hd)).1

theorem valDigits_natChars (n : Nat) : valDigits (natChars n) = n := by
  have key : ∀ L : List Nat, (∀ d ∈ L, d < 10) →
      valDigits ((L.map digitChar).reverse) = Nat.ofDigits 10 L := by
    intro L
    induction L with
    | nil => intro _; simp [valDigits, Nat.ofDigits]
    | cons d T ih =>
      intro hall
      have hd : d < 10 := hall d (List.mem_cons_self d T)
      have hT : ∀ x ∈ T, x < 10 := fun x hx => hall x (List.mem_cons_of_mem d hx)
      simp only [List.map_cons, List.reverse_cons, valDigits, List.foldl_append,
        List.foldl_cons, List.foldl_nil] at *
      rw [ih hT, Nat.ofDigits_cons, (digit_facts d hd).2]
      ring
  rw [natChars, key (Nat.digits 10 n) (fun d hd => Nat.digits_lt_base (by norm_num) hd),
    Nat.ofDigits_digits]

theorem valDigits_pad (k : Nat) (l : List Char) :
    valDigits (List.replicate k '0' ++ l) = valDigits l := by
  induction k with
  | zero => rfl
  | succ k ih =>
    have h0 : (0 * 10 + digitVal '0') = 0 := by decide
    simp only [List.replicate_succ, List.cons_append, valDigits, List.foldl_cons, h0] at *
    exact ih

theorem fracChars_digits (f : Nat) : ∀ c ∈ fracChars f, isDigitCh c = true := by
  intro c hc
  simp only [fracChars, List.mem_append, List.mem_replicate] at hc
  rcases hc with ⟨-, rfl⟩ | hc
  · decide
  · exact natChars_digits f c hc

theorem valDigits_fracChars (f : Nat) : valDigits (fracChars f) = f := by
  rw [fracChars, valDigits_pad, valDigits_natChars]

theorem natChars_len_le (f : Nat) (hf : f < 10000) : (natChars f).length ≤ 4 := by
  rcases Nat.eq_zero_or_pos f with rfl | hpos
  · simp [natChars]
  · have hne : f ≠ 0 := by omega
    have hlen : (Nat.digits 10 f).length = Nat.log 10 f + 1 :=
      Nat.digits_len 10 f (by norm_num) hne
    have hlog : Nat.log 10 f < 4 := by
      refine Nat.log_lt_of_lt_pow hne ?_
      norm_num
      omega
    simp only [natChars, List.length_reverse, List.length_map, hlen]
    omega

theorem fracChars_len (f : Nat) (hf : f < 10000) : (fracChars f).length = 4 := by
  have h := natChars_len_le f hf
  simp only [fracChars, List.length_append, List.length_replicate]
  omega

theorem splitDot_append (l1 l2 : List Char) (h : ∀ c ∈ l1, c ≠ '.') :
    splitDot (l1 ++ '.' :: l2) = (l1, some l2) := by
  induction l1 with
  | nil => simp [splitDot]
  | cons c t ih =>
    have hc : c ≠ '.' := h c (List.mem_cons_self c t)
    simp only [List.cons_append, splitDot, if_neg hc]
    have := ih (fun x hx => h x (List.mem_cons_of_mem c hx))
    simp only [List.append_eq] at this ⊢
    rw [this]

theorem isDigitCh_ne_dot (c : Char) (h : isDigitCh c = true) : c ≠ '.' := by
  rintro rfl
  exact absurd h (by decide)

theorem isDigitCh_ne_minus (c : Char) (h : isDigitCh c = true) : c ≠ '-' := by
  rintro rfl
  exact absurd h (by decide)

theorem isDigitCh_ne_plus (c : Char) (h : isDigitCh c = true) : c ≠ '+' := by
  rintro rfl
  exact absurd h (by decide)

theorem intChars_digits (i : Nat) : ∀ c ∈ intChars i, isDigitCh c = true := by
  intro c hc
  unfold intChars at hc
  split at hc
  · simp at hc
    subst hc
    decide
  · exact natChars_digits i c hc

theorem intChars_ne_nil (i : Nat) : intChars i ≠ [] := by
  unfold intChars
  split
  · simp
  next h =>
    simp only [natChars, ne_eq, List.reverse_eq_nil_iff, List.map_eq_nil_iff]
    exact Nat.digits_ne_nil_iff_ne_zero.mpr h

theorem valDigits_intChars (i : Nat) : valDigits (intChars i) = i := by
  unfold intChars
  split
  next h => subst h; decide
  next h => exact valDigits_natChars i

theorem parseUnits_format (i f : Nat) (hf : f < 10000) :
    parseUnits (intChars i ++ '.' :: fracChars f) = some (i * 10000 + f) := by
  unfold parseUnits
  rw [splitDot_append _ _ (fun c hc => isDigitCh_ne_dot c (intChars_digits i c hc))]
  have hip : (intChars i).all isDigitCh = true :=
    List.all_eq_true.mpr (intChars_digits i)
  have hfr : (fracChars f).all isDigitCh = true :=
    List.all_eq_true.mpr (fracChars_digits f)
  have hne : (intChars i).isEmpty = false := by
    cases hx : intChars i with
    | nil => exact absurd hx (intChars_ne_nil i)
    | cons c t => rfl
  simp only [Option.getD, hip, hfr, hne, Bool.not_false, Bool.and_self, Bool.and_true,
    if_true, fracChars_len f hf]
  norm_num [valDigits_intChars, valDigits_fracChars]

theorem parse_mk_cons (c : Char) (rest : List Char) :
    Decimal4.parse (String.mk (c :: rest)) =
      if c = '-' then (parseUnits rest).map (fun u => -(u : Int))
      else if c = '+' then (parseUnits rest).map (fun u => (u : Int))
      else (parseUnits (c :: rest)).map (fun u => (u : Int)) := rfl

/-- C9: parsing the string produced by formatting any `Decimal4` value
yields the value back — `parse(format(m)) == m`.  Values are represented
by their integer count of `10^-4` units, so every representable value has
at most four fractional digits and the formatter prints exactly four. -/
theorem c9_parse_format_roundtrip (n : Int) :
    Decimal4.parse (Decimal4.format n) = some n := by
  have hmod : n.natAbs % 10000 < 10000 := Nat.mod_lt _ (by norm_num)
  have hdm := Nat.div_add_mod n.natAbs 10000
  by_cases hneg : n < 0
  · have hfmt : Decimal4.format n =
        String.mk ('-' :: (intChars (n.natAbs / 10000) ++ '.' ::
          fracChars (n.natAbs % 10000))) := by
      simp [Decimal4.format, hneg]
    rw [hfmt, parse_mk_cons, if_pos rfl, parseUnits_format _ _ hmod]
    have hend : n.natAbs / 10000 * 10000 + n.natAbs % 10000 = n.natAbs := by omega
    rw [hend]
    show some (-(n.natAbs : Int)) = some n
    simp only [Option.some.injEq]
    omega
  · obtain ⟨c, t, hct⟩ : ∃ c t, intChars (n.natAbs / 10000) = c :: t := by
      cases hx : intChars (n.natAbs / 10000) with
      | nil => exact absurd hx (intChars_ne_nil _)
      | cons c t => exact ⟨c, t, rfl⟩
    have hcdig : isDigitCh c = true :=
      intChars_digits _ c (by rw [hct]; exact List.mem_cons_self c t)
    have hfmt : Decimal4.format n =
        String.mk (c :: (t ++ '.' :: fracChars (n.natAbs % 10000))) := by
      simp [Decimal4.format, hneg, hct]
    rw [hfmt, parse_mk_cons, if_neg (isDigitCh_ne_minus c hcdig),
      if_neg (isDigitCh_ne_plus c hcdig)]
    have hback : c :: (t ++ '.' :: fracChars (n.natAbs % 10000)) =
        intChars (n.natAbs / 10000) ++ '.' :: fracChars (n.natAbs % 10000) := by
      rw [hct]
      rfl
    rw [hback, parseUnits_format _ _ hmod]
    have hend : n.natAbs / 10000 * 10000 + n.natAbs % 10000 = n.natAbs := by omega
    rw [hend]
    show some ((n.natAbs : Int)) = some n
    simp only [Option.some.injEq]
    omega
